import Mathlib

/-!
Verification of the Digital Twins lifecycle resource
(`azurerm/internal/services/iothub/iothub_digital_twins_resource.go`):
a shallow embedding of the identity codec, the existence prober results,
the operation waiter, and the four reconciler entry points
(Create / Read / Update / Delete), with theorems about their behaviour.

Strings are modelled as `List Char`; remote responses are passed in
explicitly as oracle values mirroring the Go SDK call results.
-/

/-- A string, modelled as its list of characters. -/
abbrev Str := List Char

/-- Characters of a Lean string literal, used for the fixed path segments. -/
def str (s : String) : Str := s.data

namespace DigitalTwins

/-! ## Identity codec

Modelled from the spec: `parse.DigitalTwinsID` and `DigitalTwinsId.ID`
live in `azurerm/internal/services/iothub/parse`, outside the provided
sources.  The spec describes the codec as an encode/decode pair over the
addressing triple (subscriptionId, resourceGroup, name), with decode
failing on wrong segment count, empty segment, or unknown scheme prefix.
-/

/-- The addressing triple of a Digital Twins instance:
subscription id, resource group, resource name. -/
structure AddrTriple where
  subscriptionId : Str
  resourceGroup : Str
  name : Str
deriving DecidableEq, Repr

/-- Split a character list on the `/` separator.  Always returns at least
one (possibly empty) segment. -/
def splitOnSlash : Str → List Str
  | [] => [[]]
  | c :: cs =>
    if c = '/' then [] :: splitOnSlash cs
    else
      match splitOnSlash cs with
      | [] => [[c]]
      | s :: ss => (c :: s) :: ss

/-- Modelled from the spec: encode an addressing triple into the stable
Azure resource-id path
`/subscriptions/S/resourceGroups/G/providers/Microsoft.DigitalTwins/digitalTwinsInstances/N`. -/
def encodeId (t : AddrTriple) : Str :=
  '/' :: str "subscriptions" ++
  '/' :: t.subscriptionId ++
  '/' :: str "resourceGroups" ++
  '/' :: t.resourceGroup ++
  '/' :: str "providers" ++
  '/' :: str "Microsoft.DigitalTwins" ++
  '/' :: str "digitalTwinsInstances" ++
  '/' :: t.name

/-- Modelled from the spec: decode an identity string back into the
addressing triple.  Fails (returns `none`, the `MalformedIdentityError`
case) on wrong segment count, unknown fixed segments, or an empty
subscription / resource group / name segment. -/
def decodeId (s : Str) : Option AddrTriple :=
  match splitOnSlash s with
  | [pre, seg1, sub, seg2, rg, seg3, seg4, seg5, nm] =>
    if pre = [] ∧ seg1 = str "subscriptions" ∧ seg2 = str "resourceGroups" ∧
       seg3 = str "providers" ∧ seg4 = str "Microsoft.DigitalTwins" ∧
       seg5 = str "digitalTwinsInstances" ∧ sub ≠ [] ∧ rg ≠ [] ∧ nm ≠ []
    then some ⟨sub, rg, nm⟩
    else none
  | _ => none

/-- A triple is slash-free when none of its fields contains the `/`
separator character. -/
def SlashFree (t : AddrTriple) : Prop :=
  '/' ∉ t.subscriptionId ∧ '/' ∉ t.resourceGroup ∧ '/' ∉ t.name

instance (t : AddrTriple) : Decidable (SlashFree t) := by
  unfold SlashFree; infer_instance

/-! ## Location normalization

Modelled from the spec: `location.Normalize` / `location.NormalizeNilable`
live in `azurerm/internal/location`, outside the provided sources.  The
canonical form is ASCII lowercase with spaces removed. -/

/-- ASCII lowercasing of one character. -/
def lowerChar (c : Char) : Char :=
  if 65 ≤ c.toNat ∧ c.toNat ≤ 90 then Char.ofNat (c.toNat + 32) else c

/-- Modelled from the spec: `location.Normalize` — lowercase, spaces
removed. -/
def normLoc : Str → Str
  | [] => []
  | c :: cs => if c = ' ' then normLoc cs else lowerChar c :: normLoc cs

/-- Modelled from the spec: `location.NormalizeNilable` — empty string for
a missing location, `normLoc` otherwise. -/
def normalizeNilable : Option Str → Str
  | none => []
  | some l => normLoc l

/-! ## Remote data model and call results -/

/-- Tag set, modelled as an association list from tag name to value. -/
abbrev Tags := List (Str × Str)

/-- The properties block of a Digital Twins description
(`digitaltwins.Properties`): only the computed host name is consumed. -/
structure DtProperties where
  hostName : Option Str
deriving DecidableEq, Repr

/-- `digitaltwins.Description`: the body of a Get / CreateOrUpdate
response (pointer fields are `Option`s, as in the Go SDK). -/
structure Description where
  id : Option Str := none
  location : Option Str := none
  tags : Tags := []
  properties : Option DtProperties := none
deriving DecidableEq, Repr

/-- Result of one `client.Get` call: whether `err != nil`, whether
`utils.ResponseWasNotFound(resp.Response)` holds, and the response body. -/
structure GetResult where
  err : Bool
  notFound : Bool
  desc : Description
deriving DecidableEq, Repr

/-- The `schema.ResourceData` fields this resource reads or writes:
the tracked identity (`d.Id()`, empty when cleared) and the schema
attributes. -/
structure ResourceData where
  id : Str := []
  name : Str := []
  resourceGroup : Str := []
  location : Str := []
  tags : Tags := []
  hostName : Option Str := none
deriving DecidableEq, Repr

/-! ## Read (`resourceArmDigitalTwinsRead`) -/

/-- Outcome of a Read call: `removed` is the not-found branch
(`d.SetId("")` then `return nil`); `ok` carries the updated state. -/
inductive ReadOutcome
  | malformedId
  | removed (d : ResourceData)
  | queryError
  | ok (d : ResourceData)
deriving DecidableEq, Repr

/-- Embedding of `resourceArmDigitalTwinsRead`: decode the tracked id,
issue `client.Get` (result supplied as `get`), absorb not-found by
clearing the id, otherwise project the remote attributes onto the state
(`host_name` is only set when the properties block is present). -/
def resourceArmDigitalTwinsRead (d : ResourceData) (get : GetResult) :
    ReadOutcome :=
  match decodeId d.id with
  | none => .malformedId
  | some id =>
    if get.err then
      if get.notFound then .removed { d with id := [] }
      else .queryError
    else
      .ok { d with
        name := id.name
        resourceGroup := id.resourceGroup
        location := normalizeNilable get.desc.location
        hostName :=
          match get.desc.properties with
          | some props => props.hostName
          | none => d.hostName
        tags := get.desc.tags }

/-! ## Create (`resourceArmDigitalTwinsCreate`) -/

/-- The `digitaltwins.Description` payload that Create sends to
`CreateOrUpdate`: normalized location and expanded tags. -/
def createPayload (d : ResourceData) : Description :=
  { location := some (normLoc d.location), tags := d.tags }

/-- Responses of the remote calls one Create invocation performs, in
order: the existence probe (`client.Get`), the `CreateOrUpdate` error
flag, the `WaitForCompletionRef` error flag, the re-probe (`client.Get`),
and the `client.Get` of the trailing Read. -/
structure CreateOracle where
  probe : GetResult
  createErr : Bool
  waitErr : Bool
  final : GetResult
  readGet : GetResult
deriving DecidableEq, Repr

/-- Outcome of a Create call, one constructor per `return` site. -/
inductive CreateResult
  | probeError
  | alreadyExists (id : Str)
  | createError
  | waitError
  | retrieveError
  | emptyId
  | malformedId
  | finalRead (r : ReadOutcome)
deriving DecidableEq, Repr

/-- The part of `resourceArmDigitalTwinsCreate` past the import-as-exists
guard (source lines 81-110): creation call, wait, re-probe, empty/nil-id
consistency check, id parse, `SetId` with the account subscription,
trailing Read.  The Boolean records that the `CreateOrUpdate` call was
issued. -/
def createProceed (subscriptionId : Str) (d : ResourceData)
    (o : CreateOracle) : CreateResult × Bool :=
  if o.createErr then (.createError, true)
  else if o.waitErr then (.waitError, true)
  else if o.final.err then (.retrieveError, true)
  else
    match o.final.desc.id with
    | none => (.emptyId, true)
    | some rid =>
      if rid = [] then (.emptyId, true)
      else
        match decodeId rid with
        | none => (.malformedId, true)
        | some pid =>
          (.finalRead (resourceArmDigitalTwinsRead
            { d with id := encodeId ⟨subscriptionId, pid.resourceGroup, pid.name⟩ }
            o.readGet), true)

/-- Embedding of `resourceArmDigitalTwinsCreate`.  Returns the outcome
together with a flag recording whether the `CreateOrUpdate` call was
issued.  Mirrors the source: probe, not-found-tolerant error check,
import-as-exists guard on a non-nil non-empty probed id, then
`createProceed`. -/
def resourceArmDigitalTwinsCreate (subscriptionId : Str) (d : ResourceData)
    (o : CreateOracle) : CreateResult × Bool :=
  let existing := o.probe
  if existing.err ∧ ¬ existing.notFound then (.probeError, false)
  else
    match existing.desc.id with
    | some eid =>
      if eid ≠ [] then (.alreadyExists eid, false)
      else createProceed subscriptionId d o
    | none => createProceed subscriptionId d o

/-- A well-behaved remote for one Create invocation: the object is
initially absent (probe answers not-found), creation succeeds, the store
keeps the sent payload together with the server-assigned id and computed
host name `h`, and both subsequent Gets echo the stored object. -/
def honestCreateOracle (subscriptionId : Str) (d : ResourceData)
    (h : Option Str) : CreateOracle :=
  let stored : Description :=
    { createPayload d with
        id := some (encodeId ⟨subscriptionId, d.resourceGroup, d.name⟩)
        properties := some ⟨h⟩ }
  { probe := { err := true, notFound := true, desc := {} }
    createErr := false
    waitErr := false
    final := { err := false, notFound := false, desc := stored }
    readGet := { err := false, notFound := false, desc := stored } }

/-! ## Update (`resourceArmDigitalTwinsUpdate`) -/

/-- Modelled from the spec: the patch payload, with every field the spec
considers sendable (tags, location, name); the Go SDK patch type is
outside the provided sources.  All fields start absent, as in
`digitaltwins.PatchDescription{}`. -/
structure PatchDescription where
  tags : Option Tags := none
  location : Option Str := none
  name : Option Str := none
deriving DecidableEq, Repr

/-- The patch Update builds: starts empty and includes the tag set
exactly when `d.HasChange("tags")` holds (the changed-field set is
supplied as the list `changed`). -/
def buildUpdatePatch (d : ResourceData) (changed : List Str) :
    PatchDescription :=
  let properties : PatchDescription := {}
  if str "tags" ∈ changed then { properties with tags := some d.tags }
  else properties

/-- Outcome of an Update call. -/
inductive UpdateResult
  | malformedId
  | updateError
  | finalRead (r : ReadOutcome)
deriving DecidableEq, Repr

/-- Embedding of `resourceArmDigitalTwinsUpdate`: decode the tracked id,
build the patch, issue `client.Update` (error flag supplied), delegate to
Read.  Also returns the patch that was sent to the remote API, when the
call was reached. -/
def resourceArmDigitalTwinsUpdate (d : ResourceData) (changed : List Str)
    (updateErr : Bool) (readGet : GetResult) :
    UpdateResult × Option PatchDescription :=
  match decodeId d.id with
  | none => (.malformedId, none)
  | some _ =>
    let properties := buildUpdatePatch d changed
    if updateErr then (.updateError, some properties)
    else (.finalRead (resourceArmDigitalTwinsRead d readGet), some properties)

/-! ## Delete (`resourceArmDigitalTwinsDelete`) -/

/-- Result of the `client.Delete` call, as the HTTP status of the delete
response. -/
structure DeleteCallResult where
  status : Nat
deriving DecidableEq, Repr

/-- Modelled from the spec: the transport collaborator (the SDK delete
responder) reports an error unless the delete response status is 200,
202 or 204; the remote control plane answers deletion of an already
absent object with 204, so a not-found delete response surfaces as no
error. -/
def deleteCallErr (r : DeleteCallResult) : Bool :=
  ¬ (r.status = 200 ∨ r.status = 202 ∨ r.status = 204)

/-- Outcome of a Delete call. -/
inductive DeleteResult
  | malformedId
  | deleteError
  | waitError
  | success
deriving DecidableEq, Repr

/-- Embedding of `resourceArmDigitalTwinsDelete`: decode the tracked id,
issue the delete call, wait on the returned future (error flag
supplied), return nil on success. -/
def resourceArmDigitalTwinsDelete (d : ResourceData)
    (call : DeleteCallResult) (waitErr : Bool) : DeleteResult :=
  match decodeId d.id with
  | none => .malformedId
  | some _ =>
    if deleteCallErr call then .deleteError
    else if waitErr then .waitError
    else .success

/-! ## Operation waiter

Modelled from the spec: `WaitForCompletionRef` and the `timeouts`
helpers are outside the provided sources.  The waiter polls the
operation's status until it is terminal or the caller-supplied deadline
(counted in poll steps) elapses; it never attempts cancellation of the
remote operation. -/

/-- Status of an asynchronous remote operation at one poll instant. -/
inductive OpStatus
  | pending
  | succeeded
  | failed
deriving DecidableEq, Repr

/-- What the waiter returns. -/
inductive WaitResult
  | ok
  | opFailed
  | timeoutErr
deriving DecidableEq, Repr

/-- The waiter's observable behaviour: its result, how many polls it
made, and whether it issued a cancellation of the remote operation. -/
structure WaitOutcome where
  result : WaitResult
  polls : Nat
  cancelIssued : Bool
deriving DecidableEq, Repr

/-- Modelled from the spec: poll from instant `t` with the given number
of remaining polls before the deadline; stop on a terminal status,
return `timeoutErr` when the deadline elapses while still non-terminal. -/
def waitFrom (op : Nat → OpStatus) (t : Nat) : Nat → WaitOutcome
  | 0 => ⟨.timeoutErr, t, false⟩
  | n + 1 =>
    match op t with
    | .succeeded => ⟨.ok, t + 1, false⟩
    | .failed => ⟨.opFailed, t + 1, false⟩
    | .pending => waitFrom op (t + 1) n

/-- Modelled from the spec: `Wait(AsyncOperation, deadline)`. -/
def waitForCompletion (op : Nat → OpStatus) (deadline : Nat) : WaitOutcome :=
  waitFrom op 0 deadline

/-! ## Helper lemmas -/

theorem splitOnSlash_slash_cons (s : Str) :
    splitOnSlash ('/' :: s) = [] :: splitOnSlash s := by
  simp [splitOnSlash]

theorem splitOnSlash_append_of_not_mem (a s : Str) (u : Str) (us : List Str)
    (ha : '/' ∉ a) (hs : splitOnSlash s = u :: us) :
    splitOnSlash (a ++ s) = (a ++ u) :: us := by
  induction a with
  | nil => simpa using hs
  | cons c cs ih =>
    have hc : c ≠ '/' := by
      intro h; exact ha (by simp [h])
    have hcs : '/' ∉ cs := fun h => ha (by simp [h])
    have ih2 := ih hcs
    simp only [List.cons_append, splitOnSlash, if_neg hc]
    rw [show cs.append s = cs ++ s from rfl, ih2]

theorem splitOnSlash_of_not_mem (a : Str) (ha : '/' ∉ a) :
    splitOnSlash a = [a] := by
  have h := splitOnSlash_append_of_not_mem a [] [] [] ha rfl
  simpa using h

theorem splitOnSlash_seg (a s : Str) (u : Str) (us : List Str)
    (ha : '/' ∉ a) (hs : splitOnSlash s = u :: us) :
    splitOnSlash (a ++ '/' :: s) = a :: u :: us := by
  have h1 : splitOnSlash ('/' :: s) = [] :: u :: us := by
    rw [splitOnSlash_slash_cons, hs]
  have h2 := splitOnSlash_append_of_not_mem a ('/' :: s) [] (u :: us) ha h1
  simpa using h2

theorem splitOnSlash_encodeId (t : AddrTriple) (hf : SlashFree t) :
    splitOnSlash (encodeId t) =
      [[], str "subscriptions", t.subscriptionId, str "resourceGroups",
       t.resourceGroup, str "providers", str "Microsoft.DigitalTwins",
       str "digitalTwinsInstances", t.name] := by
  obtain ⟨hsub, hrg, hnm⟩ := hf
  have e : encodeId t = '/' ::
      (str "subscriptions" ++ '/' ::
        (t.subscriptionId ++ '/' ::
          (str "resourceGroups" ++ '/' ::
            (t.resourceGroup ++ '/' ::
              (str "providers" ++ '/' ::
                (str "Microsoft.DigitalTwins" ++ '/' ::
                  (str "digitalTwinsInstances" ++ '/' :: t.name))))))) := by
    simp [encodeId, List.cons_append, List.append_assoc]
  have h8 : splitOnSlash t.name = [t.name] := splitOnSlash_of_not_mem _ hnm
  have h7 := splitOnSlash_seg (str "digitalTwinsInstances") _ _ _ (by decide) h8
  have h6 := splitOnSlash_seg (str "Microsoft.DigitalTwins") _ _ _ (by decide) h7
  have h5 := splitOnSlash_seg (str "providers") _ _ _ (by decide) h6
  have h4 := splitOnSlash_seg t.resourceGroup _ _ _ hrg h5
  have h3 := splitOnSlash_seg (str "resourceGroups") _ _ _ (by decide) h4
  have h2 := splitOnSlash_seg t.subscriptionId _ _ _ hsub h3
  have h1 := splitOnSlash_seg (str "subscriptions") _ _ _ (by decide) h2
  rw [e, splitOnSlash_slash_cons, h1]

/-- Round-trip of the identity codec on triples with nonempty,
slash-free fields. -/
theorem decodeId_encodeId (t : AddrTriple)
    (hsub : t.subscriptionId ≠ []) (hrg : t.resourceGroup ≠ [])
    (hnm : t.name ≠ []) (hf : SlashFree t) :
    decodeId (encodeId t) = some t := by
  unfold decodeId
  rw [splitOnSlash_encodeId t hf]
  simp [hsub, hrg, hnm]

theorem toNat_ofNat_of_lt (m : Nat) (h : m < 55296) :
    (Char.ofNat m).toNat = m := by
  have hv : m.isValidChar := Or.inl h
  simp [Char.ofNat, hv, Char.ofNatAux, Char.toNat, UInt32.toNat, UInt32.ofNatCore]

theorem lowerChar_toNat (c : Char) (h : 65 ≤ c.toNat ∧ c.toNat ≤ 90) :
    (lowerChar c).toNat = c.toNat + 32 := by
  unfold lowerChar
  rw [if_pos h]
  exact toNat_ofNat_of_lt _ (by omega)

theorem lowerChar_idem (c : Char) : lowerChar (lowerChar c) = lowerChar c := by
  by_cases h : 65 ≤ c.toNat ∧ c.toNat ≤ 90
  · have ht := lowerChar_toNat c h
    unfold lowerChar
    rw [if_pos h]
    rw [if_neg]
    unfold lowerChar at ht
    rw [if_pos h] at ht
    omega
  · unfold lowerChar
    rw [if_neg h, if_neg h]

theorem lowerChar_ne_space (c : Char) (h : c ≠ ' ') : lowerChar c ≠ ' ' := by
  by_cases hb : 65 ≤ c.toNat ∧ c.toNat ≤ 90
  · intro he
    have ht := lowerChar_toNat c hb
    rw [he] at ht
    have hs : (' ' : Char).toNat = 32 := by decide
    omega
  · unfold lowerChar
    rw [if_neg hb]
    exact h

theorem normLoc_idem (s : Str) : normLoc (normLoc s) = normLoc s := by
  induction s with
  | nil => rfl
  | cons c cs ih =>
    by_cases hc : c = ' '
    · simp [normLoc, hc, ih]
    · have hl : lowerChar c ≠ ' ' := lowerChar_ne_space c hc
      simp [normLoc, hc, hl, lowerChar_idem, ih]

theorem createProceed_snd (subscriptionId : Str) (d : ResourceData)
    (o : CreateOracle) : (createProceed subscriptionId d o).2 = true := by
  unfold createProceed
  repeat' split
  all_goals rfl

theorem createProceed_ne_alreadyExists (subscriptionId : Str)
    (d : ResourceData) (o : CreateOracle) (s : Str) :
    (createProceed subscriptionId d o).1 ≠ .alreadyExists s := by
  unfold createProceed
  repeat' split
  all_goals simp

theorem waitFrom_pending (op : Nat → OpStatus)
    (hp : ∀ n, op n = .pending) :
    ∀ n t, waitFrom op t n = ⟨.timeoutErr, t + n, false⟩ := by
  intro n
  induction n with
  | zero => intro t; simp [waitFrom]
  | succ k ih =>
    intro t
    have := ih (t + 1)
    simp only [waitFrom, hp t, this]
    congr 1
    omega

/-! ## Claims -/

/-- C1: for every Create invocation whose prospective identity already
probes as found on the remote system (the probe succeeds and carries a
non-nil, non-empty id), Create fails with `AlreadyExistsError` carrying
the colliding identity and does not issue a creation call. -/
theorem C1_create_guard (subscriptionId : Str) (d : ResourceData)
    (o : CreateOracle) (eid : Str)
    (hok : o.probe.err = false) (hid : o.probe.desc.id = some eid)
    (hne : eid ≠ []) :
    resourceArmDigitalTwinsCreate subscriptionId d o =
      (.alreadyExists eid, false) := by
  unfold resourceArmDigitalTwinsCreate
  simp [hok, hid, hne]

theorem C1_create_guard_witness :
    resourceArmDigitalTwinsCreate (str "sub0")
      { name := str "dt1", resourceGroup := str "rg1" }
      { probe := { err := false, notFound := false,
                   desc := { id := some (str "oldid") } },
        createErr := false, waitErr := false,
        final := { err := false, notFound := false, desc := {} },
        readGet := { err := false, notFound := false, desc := {} } } =
      (.alreadyExists (str "oldid"), false) :=
  C1_create_guard _ _ _ _ rfl rfl (by decide)

/-- C2 (amended): for every addressing triple whose fields are nonempty
and free of the `/` separator, decoding the encoded identity recovers
the triple exactly, with case preserved.  (The claim as frozen quantifies
over all triples with nonempty fields; a field containing the separator
breaks the round-trip, see the counterexample.) -/
theorem C2_round_trip (t : AddrTriple)
    (hsub : t.subscriptionId ≠ []) (hrg : t.resourceGroup ≠ [])
    (hnm : t.name ≠ []) (hf : SlashFree t) :
    decodeId (encodeId t) = some t :=
  decodeId_encodeId t hsub hrg hnm hf

theorem C2_round_trip_witness :
    decodeId (encodeId ⟨str "sub0", str "rg1", str "Dt1"⟩) =
      some ⟨str "sub0", str "rg1", str "Dt1"⟩ :=
  C2_round_trip _ (by decide) (by decide) (by decide) (by decide)

/-- C2 counterexample: a triple with nonempty fields whose name contains
the separator does not round-trip (decode rejects the eleven-segment
string). -/
theorem C2_round_trip_counterexample :
    ((str "sub0" : Str) ≠ [] ∧ (str "rg1" : Str) ≠ [] ∧
     (str "dt/1" : Str) ≠ []) ∧
    decodeId (encodeId ⟨str "sub0", str "rg1", str "dt/1"⟩) ≠
      some ⟨str "sub0", str "rg1", str "dt/1"⟩ := by decide

/-- C3: Delete on an identity whose remote object is already absent
succeeds without error: the control plane answers the delete call with
204 (not-found absorbed by the responder), the returned future is
already terminal so the wait reports no error, and Delete returns nil. -/
theorem C3_delete_absent_success (d : ResourceData)
    (call : DeleteCallResult) (i : AddrTriple)
    (hdec : decodeId d.id = some i) (h204 : call.status = 204) :
    resourceArmDigitalTwinsDelete d call false = .success := by
  unfold resourceArmDigitalTwinsDelete
  rw [hdec]
  simp [deleteCallErr, h204]

theorem C3_delete_absent_success_witness :
    resourceArmDigitalTwinsDelete
      { id := encodeId ⟨str "sub0", str "rg1", str "dt1"⟩ }
      { status := 204 } false = .success :=
  C3_delete_absent_success _ _ ⟨str "sub0", str "rg1", str "dt1"⟩
    (by decide) rfl

/-- C4: Read on an identity whose remote object does not exist (the Get
errs with a not-found response) clears the tracked identity and returns
nil rather than an error. -/
theorem C4_read_not_found (d : ResourceData) (g : GetResult)
    (i : AddrTriple) (hdec : decodeId d.id = some i)
    (he : g.err = true) (hnf : g.notFound = true) :
    resourceArmDigitalTwinsRead d g = .removed { d with id := [] } := by
  unfold resourceArmDigitalTwinsRead
  rw [hdec]
  simp [he, hnf]

theorem C4_read_not_found_witness :
    resourceArmDigitalTwinsRead
      { id := encodeId ⟨str "sub0", str "rg1", str "dt1"⟩ }
      { err := true, notFound := true, desc := {} } =
      .removed { id := [] } :=
  C4_read_not_found _ _ ⟨str "sub0", str "rg1", str "dt1"⟩
    (by decide) rfl rfl

/-- C5: when the creation call and the wait both report success but the
final re-probe returns a body with an empty or nil identity, Create
fails with the `ConsistencyError` (`emptyId`) rather than reporting a
partial success. -/
theorem C5_create_consistency (subscriptionId : Str) (d : ResourceData)
    (o : CreateOracle)
    (hpe : o.probe.err = true) (hpn : o.probe.notFound = true)
    (hpid : o.probe.desc.id = none)
    (hc : o.createErr = false) (hw : o.waitErr = false)
    (hfe : o.final.err = false)
    (hfid : o.final.desc.id = none ∨ o.final.desc.id = some []) :
    resourceArmDigitalTwinsCreate subscriptionId d o = (.emptyId, true) := by
  unfold resourceArmDigitalTwinsCreate createProceed
  rcases hfid with hfid | hfid <;> simp [hpe, hpn, hpid, hc, hw, hfe, hfid]

theorem C5_create_consistency_witness :
    resourceArmDigitalTwinsCreate (str "sub0")
      { name := str "dt1", resourceGroup := str "rg1" }
      { probe := { err := true, notFound := true, desc := {} },
        createErr := false, waitErr := false,
        final := { err := false, notFound := false, desc := {} },
        readGet := { err := false, notFound := false, desc := {} } } =
      (.emptyId, true) :=
  C5_create_consistency _ _ _ rfl rfl rfl rfl rfl rfl (Or.inl rfl)

/-- C6: an Update invocation in which only the tags field is marked
changed sends a patch that carries the tag set and includes neither
location nor name. -/
theorem C6_update_minimal_patch (d : ResourceData) (changed : List Str)
    (updateErr : Bool) (g : GetResult) (i : AddrTriple)
    (hdec : decodeId d.id = some i) (hch : changed = [str "tags"]) :
    (resourceArmDigitalTwinsUpdate d changed updateErr g).2 =
      some { tags := some d.tags, location := none, name := none } := by
  subst hch
  unfold resourceArmDigitalTwinsUpdate buildUpdatePatch
  rw [hdec]
  cases updateErr <;> simp

theorem C6_update_minimal_patch_witness :
    (resourceArmDigitalTwinsUpdate
      { id := encodeId ⟨str "sub0", str "rg1", str "dt1"⟩,
        tags := [(str "env", str "prod")] }
      [str "tags"] false { err := false, notFound := false, desc := {} }).2 =
      some { tags := some [(str "env", str "prod")], location := none,
             name := none } :=
  C6_update_minimal_patch _ _ false _ ⟨str "sub0", str "rg1", str "dt1"⟩
    (by decide) rfl

/-- C7: a wait on an operation handle that never reaches a terminal
status returns `timeoutErr` exactly when the caller-supplied deadline
elapses (after `deadline` polls, so it never blocks indefinitely) and
issues no cancellation of the remote operation. -/
theorem C7_wait_timeout (op : Nat → OpStatus) (deadline : Nat)
    (hp : ∀ n, op n = .pending) :
    waitForCompletion op deadline = ⟨.timeoutErr, deadline, false⟩ := by
  unfold waitForCompletion
  have h := waitFrom_pending op hp deadline 0
  simpa using h

theorem C7_wait_timeout_witness :
    waitForCompletion (fun _ => OpStatus.pending) 5 =
      ⟨.timeoutErr, 5, false⟩ :=
  C7_wait_timeout _ 5 (fun _ => rfl)

/-- C8: against a well-behaved remote, a successful Create for a config
with nonempty, slash-free addressing fields ends (through its immediate
trailing Read) in `found=true` state carrying the declared name, the
declared resource group, and the normalized declared location. -/
theorem C8_create_then_read (subscriptionId : Str) (d : ResourceData)
    (h : Option Str)
    (hsub : subscriptionId ≠ []) (hrg : d.resourceGroup ≠ [])
    (hnm : d.name ≠ [])
    (hf : SlashFree ⟨subscriptionId, d.resourceGroup, d.name⟩) :
    resourceArmDigitalTwinsCreate subscriptionId d
        (honestCreateOracle subscriptionId d h) =
      (.finalRead (.ok { d with
          id := encodeId ⟨subscriptionId, d.resourceGroup, d.name⟩,
          location := normLoc d.location,
          hostName := h }), true) := by
  have hdec : decodeId (encodeId ⟨subscriptionId, d.resourceGroup, d.name⟩) =
      some ⟨subscriptionId, d.resourceGroup, d.name⟩ :=
    decodeId_encodeId _ hsub hrg hnm hf
  have hne : encodeId ⟨subscriptionId, d.resourceGroup, d.name⟩ ≠ [] := by
    simp [encodeId]
  unfold resourceArmDigitalTwinsCreate honestCreateOracle createProceed
    createPayload resourceArmDigitalTwinsRead
  simp [hdec, hne, normalizeNilable, normLoc_idem]

theorem C8_create_then_read_witness :
    resourceArmDigitalTwinsCreate (str "sub0")
      { name := str "dt1", resourceGroup := str "rg1",
        location := str "West US", tags := [(str "env", str "prod")] }
      (honestCreateOracle (str "sub0")
        { name := str "dt1", resourceGroup := str "rg1",
          location := str "West US", tags := [(str "env", str "prod")] }
        (some (str "dt1.api.wus.digitaltwins.azure.net"))) =
      (.finalRead (.ok
        { name := str "dt1", resourceGroup := str "rg1",
          location := normLoc (str "West US"),
          tags := [(str "env", str "prod")],
          id := encodeId ⟨str "sub0", str "rg1", str "dt1"⟩,
          hostName := some (str "dt1.api.wus.digitaltwins.azure.net") }),
       true) :=
  C8_create_then_read _ _ _ (by decide) (by decide) (by decide) (by decide)

/-- C9: the already-exists guard keys on the probed identity, not on
probe success: a probe that succeeds but carries a nil or empty id lets
Create proceed to the creation call, and the outcome is never
`alreadyExists`. -/
theorem C9_guard_keys_on_identity (subscriptionId : Str)
    (d : ResourceData) (o : CreateOracle)
    (hok : o.probe.err = false)
    (hid : o.probe.desc.id = none ∨ o.probe.desc.id = some []) :
    (resourceArmDigitalTwinsCreate subscriptionId d o).2 = true ∧
    ∀ s, (resourceArmDigitalTwinsCreate subscriptionId d o).1 ≠
      .alreadyExists s := by
  have hred : resourceArmDigitalTwinsCreate subscriptionId d o =
      createProceed subscriptionId d o := by
    unfold resourceArmDigitalTwinsCreate
    rcases hid with hid | hid <;> simp [hok, hid]
  rw [hred]
  exact ⟨createProceed_snd _ _ _,
    fun s => createProceed_ne_alreadyExists _ _ _ s⟩

theorem C9_guard_keys_on_identity_witness :
    (resourceArmDigitalTwinsCreate (str "sub0")
      { name := str "dt1", resourceGroup := str "rg1" }
      { probe := { err := false, notFound := false, desc := { id := some [] } },
        createErr := false, waitErr := false,
        final := { err := false, notFound := false, desc := {} },
        readGet := { err := false, notFound := false, desc := {} } }).2 =
      true :=
  (C9_guard_keys_on_identity _ _ _ rfl (Or.inr rfl)).1

/-- C10: a Read whose Get succeeds but whose body has no properties
block still succeeds, projecting name, resource group, location and
tags, and leaves the computed host name untouched instead of
dereferencing the missing block. -/
theorem C10_read_nil_properties (d : ResourceData) (g : GetResult)
    (i : AddrTriple) (hdec : decodeId d.id = some i)
    (he : g.err = false) (hp : g.desc.properties = none) :
    resourceArmDigitalTwinsRead d g = .ok { d with
      name := i.name,
      resourceGroup := i.resourceGroup,
      location := normalizeNilable g.desc.location,
      tags := g.desc.tags } := by
  unfold resourceArmDigitalTwinsRead
  rw [hdec]
  simp [he, hp]

theorem C10_read_nil_properties_witness :
    resourceArmDigitalTwinsRead
      { id := encodeId ⟨str "sub0", str "rg1", str "dt1"⟩ }
      { err := false, notFound := false,
        desc := { location := some (str "westus"),
                  tags := [(str "env", str "prod")] } } =
      .ok { id := encodeId ⟨str "sub0", str "rg1", str "dt1"⟩,
            name := str "dt1", resourceGroup := str "rg1",
            location := normalizeNilable (some (str "westus")),
            tags := [(str "env", str "prod")] } :=
  C10_read_nil_properties _ _ ⟨str "sub0", str "rg1", str "dt1"⟩
    (by decide) rfl rfl

end DigitalTwins
